import Mathlib

/-!
Verification development for the OTP-Preprocessor repository.

Shallow embedding of the parts of the code the claims refer to:
  - src/utils/filter.py      (prepare_data)
  - src/downloader/wfs.py    (WFS200.stream_feature)
  - src/downloader/bgt.py    (BGTDownloader.fetch / BGTDownloader.download)
  - src/utils/converter.py   (multi_replace as used by bgt_convert)
  - src/processors/rasterizer.py (rasterize_layers)
  - src/process_map.py       (MapProcessor.download)

Machine integers do not occur on the paths modelled here; pixel values and
class codes are plain Int, counts are Nat.  Fallible code (python exceptions)
is modelled with Except.
-/

namespace OTP

/-! ## Data model shared by the filter.py embedding

A vector layer (geopandas GeoDataFrame) is modelled as a list of attribute
column names, a list of rows, and a CRS.  A row carries the geometry type
string (shapely geom_type), whether the geometry is empty, and an
association list of attribute values.  A missing value (NaN / NaT / None)
is `none`. -/

inductive Value where
  | vInt : Int → Value
  | vStr : String → Value
  | vDat : Int → Value
deriving DecidableEq, Repr

/-- A dataframe cell: `none` is pandas NaN / NaT / None. -/
abbrev Cell := Option Value

structure Row where
  geomType : String
  emptyGeom : Bool
  vals : List (String × Cell)
deriving DecidableEq, Repr

/-- Reading a column value of one row; a column absent from the row reads
as missing. -/
def Row.get (r : Row) (a : String) : Cell := (r.vals.lookup a).getD none

/-- Column assignment for one row (pandas `gdf[attr] = ...` restricted to
this row): the previous binding of the column, if any, is replaced. -/
def Row.set (r : Row) (a : String) (c : Cell) : Row :=
  { r with vals := (a, c) :: r.vals.filter (fun p => p.1 ≠ a) }

structure GDF where
  cols : List String
  rows : List Row
  crs : Option String
deriving DecidableEq, Repr

/-- The `value_map` argument of prepare_data: either a dict
(isinstance(value_map, dict)) or a constant (any other BASE value,
including None). -/
inductive ValueMap where
  | const : Cell → ValueMap
  | table : List (Value × Cell) → ValueMap
deriving DecidableEq, Repr

/-! ## prepare_data (src/utils/filter.py lines 87-129), one layer

The python function loops over the layers of the dataset and applies the
same per-layer transformation to each; the embedding below is that
per-layer transformation.  pandas datetime parsing (pd.to_datetime with a
format string and errors='coerce') is external-library behaviour and is
passed in as the `parse` function; `errors='coerce'` means `parse` returns
`none` for unparsable input instead of failing. -/

/-- gdf = gdf[gdf.geom_type.isin(geom_types)] (only when geom_types is not
None). -/
def filterGeom (geomTypes : Option (List String)) (rows : List Row) : List Row :=
  match geomTypes with
  | none => rows
  | some g => rows.filter (fun r => g.contains r.geomType)

/-- for attr, fmt in infer_datetime.items(): gdf[attr] = pd.to_datetime(...).
Reading a column that does not exist raises a KeyError. -/
def coerceDatetime (parse : String → Cell → Cell) (cols : List String) :
    List (String × String) → List Row → Except String (List Row)
  | [], rows => .ok rows
  | (attr, fmt) :: rest, rows =>
    if cols.contains attr then
      coerceDatetime parse cols rest
        (rows.map (fun r => r.set attr (parse fmt (r.get attr))))
    else .error "KeyError"

/-- The synthetic row appended when the filtered layer is empty: an empty
MultiPolygon geometry, every original attribute column missing (pd.concat
fills the columns absent from the dummy frame with NaN). -/
def placeholderRow (cols : List String) : Row :=
  { geomType := "MultiPolygon", emptyGeom := true,
    vals := cols.map (fun c => (c, (none : Cell))) }

/-- Series.fillna(default_fill) applied to one cell. -/
def cellFill (fill : Cell) : Cell → Cell
  | none => fill
  | some v => some v

/-- Series.map(value_map) applied to one cell: a missing source value maps
to NaN, a source value absent from the dict maps to NaN. -/
def mapLookup (m : List (Value × Cell)) : Cell → Cell
  | none => none
  | some v => (m.lookup v).getD none

/-- Appending the injected column to the dataframe column list (pandas adds
a new column at the end; assigning an existing column keeps the list). -/
def addCol (cols : List String) (a : String) : List String :=
  if cols.contains a then cols else cols ++ [a]

/-- The new-attribute injection step of prepare_data:
if new_attr is not None:
    if isinstance(value_map, dict):
        gdf[new_attr] = gdf[infer_attr].map(value_map).fillna(default_fill)
    else:
        gdf[new_attr] = value_map
Reading gdf[infer_attr] with a missing (or None) infer_attr raises a
KeyError; Series.fillna(None) raises a ValueError in pandas
("Must specify a fill 'value' or 'method'"). -/
def injectAttr (newAttr : Option String) (inferAttr : Option String)
    (valueMap : ValueMap) (defaultFill : Cell) (cols : List String)
    (rows : List Row) : Except String (List String × List Row) :=
  match newAttr with
  | none => .ok (cols, rows)
  | some a =>
    match valueMap with
    | .table m =>
      match inferAttr with
      | none => .error "KeyError"
      | some ia =>
        if cols.contains ia then
          if defaultFill = none then .error "ValueError: fill value"
          else .ok (addCol cols a,
            rows.map (fun r => r.set a (cellFill defaultFill (mapLookup m (r.get ia)))))
        else .error "KeyError"
    | .const c => .ok (addCol cols a, rows.map (fun r => r.set a c))

/-- Comparison used by the sorting step.  The exact order pandas sort_values
produces is irrelevant to every claim (only the multiset of rows matters);
a total boolean comparison with missing values last (the pandas
na_position='last' default) stands in for it. -/
def strLeAux : List Char → List Char → Bool
  | [], _ => true
  | _ :: _, [] => false
  | a :: as, b :: bs => if a = b then strLeAux as bs else decide (a.val < b.val)

def valueLe : Value → Value → Bool
  | .vInt i, .vInt j => decide (i ≤ j)
  | .vStr s, .vStr t => strLeAux s.data t.data
  | .vDat d, .vDat e => decide (d ≤ e)
  | .vInt _, _ => true
  | .vStr _, .vDat _ => true
  | _, _ => false

def cellLe : Cell → Cell → Bool
  | none, none => true
  | none, some _ => false
  | some _, none => true
  | some v, some w => valueLe v w

/-- gdf = gdf.sort_values(by=sort_by, ascending=sort_asc); sorting by a
column that does not exist raises a KeyError. -/
def sortRows (sortBy : Option String) (asc : Bool) (cols : List String)
    (rows : List Row) : Except String (List Row) :=
  match sortBy with
  | none => .ok rows
  | some k =>
    if cols.contains k then
      .ok (rows.mergeSort (fun r1 r2 =>
        if asc then cellLe (r1.get k) (r2.get k) else cellLe (r2.get k) (r1.get k)))
    else .error "KeyError"

/-- prepare_data (src/utils/filter.py lines 87-129) applied to one layer:
geometry-type filtering, datetime coercion, the empty-layer placeholder
(pd.concat of the filtered frame with a one-row dummy frame whose only
column is the empty-MultiPolygon geometry, preserving the CRS), attribute
injection, and sorting.  Writing the file back (to_file) keeps the columns,
rows and CRS of the frame and is the identity on this model. -/
def prepare_data (gdf : GDF) (geomTypes : Option (List String))
    (inferDatetime : List (String × String)) (parse : String → Cell → Cell)
    (newAttr : Option String) (inferAttr : Option String)
    (valueMap : ValueMap) (defaultFill : Cell)
    (sortBy : Option String) (sortAsc : Bool) : Except String GDF :=
  match coerceDatetime parse gdf.cols inferDatetime (filterGeom geomTypes gdf.rows) with
  | .error e => .error e
  | .ok rows2 =>
    let rows3 := if rows2.isEmpty then rows2 ++ [placeholderRow gdf.cols] else rows2
    match injectAttr newAttr inferAttr valueMap defaultFill gdf.cols rows3 with
    | .error e => .error e
    | .ok (cols4, rows4) =>
      match sortRows sortBy sortAsc cols4 rows4 with
      | .error e => .error e
      | .ok rows5 => .ok { cols := cols4, rows := rows5, crs := gdf.crs }

/-! ## WFS200.stream_feature pagination (src/downloader/wfs.py lines 246-281)

The page fetch (get_feature) performs network I/O; it is passed in as a
function returning `none` when the underlying request raises.  Each fetched
page is re-indexed with gdf.index = range(marker, marker + gdf.shape[0])
and appended to the destination; the embedding accumulates the (index, row)
pairs that are written. -/

/-- python range(start, stop, step) for step > 0. -/
def pyRange (start stop step : Nat) : List Nat :=
  List.range' start (if stop ≤ start then 0 else (stop - start - 1) / step + 1) step

/-- The global re-indexing of one page: indices marker .. marker+len-1. -/
def indexPairs {α : Type} (marker : Nat) (page : List α) : List (Nat × α) :=
  (List.range' marker page.length).zip page

def streamGo {α : Type} (fetchPage : Nat → Option (List α)) :
    List Nat → List (Nat × α) → Except String (List (Nat × α))
  | [], acc => .ok acc
  | m :: ms, acc =>
    match fetchPage m with
    | none => .error "page fetch failed"
    | some page => streamGo fetchPage ms (acc ++ indexPairs m page)

/-- stream_feature: markers = tuple(range(start_index, total_hits,
max_features)); every marker is fetched in order and written; a failing
page fetch propagates (aborts the call). -/
def stream_feature {α : Type} (totalHits maxFeatures startIndex : Nat)
    (fetchPage : Nat → Option (List α)) : Except String (List (Nat × α)) :=
  streamGo fetchPage (pyRange startIndex totalHits maxFeatures) []

/-! ## fid/FID renaming inside stream_feature (wfs.py lines 282-295) -/

/-- python str.upper() for the ASCII suffixes involved (character-wise). -/
def pyUpper (s : String) : String := ⟨s.data.map Char.toUpper⟩

/-- column_mappings = ("fid" -> f"fid{fid_suffix}",
                       "FID" -> f"FID{fid_suffix.upper()}"). -/
def fidColumnMappings (fidSuffix : String) : List (String × String) :=
  [("fid", "fid" ++ fidSuffix), ("FID", "FID" ++ pyUpper fidSuffix)]

/-- The per-page collision check and rename: raise when either target name
is already a column, otherwise rename via the mapping. -/
def renameFidColumns (columns : List String) (fidSuffix : String) :
    Except String (List String) :=
  if (fidColumnMappings fidSuffix).any (fun p => columns.contains p.2) then
    .error "Attribute already exists"
  else
    .ok (columns.map (fun c => ((fidColumnMappings fidSuffix).lookup c).getD c))

/-! ## BGTDownloader.fetch (src/downloader/bgt.py lines 161-177)

requests.Response.raise_for_status raises an HTTPError exactly when the
status code is a 4xx or 5xx; for any other status it returns normally. -/

structure BgtResponseBody where
  downloadRequestId : String
  statusHref : String
deriving DecidableEq, Repr

/-- The POST response seen by fetch: a status code and, when the body
parses as JSON, the parsed body. -/
structure HttpResponse where
  statusCode : Nat
  jsonBody : Option BgtResponseBody
deriving DecidableEq, Repr

structure FetchMeta where
  downloadRequestId : String
  downloadEndPoint : String
deriving DecidableEq, Repr

def bgtApiBaseUrl : String := "https://api.pdok.nl"

/-- fetch: on 202 parse the JSON body (ValueError when it is not JSON) and
return the request id and the status endpoint; otherwise
response.raise_for_status(), which raises only for 4xx/5xx and silently
returns None for any other non-202 status. -/
def bgtFetch (resp : HttpResponse) : Except String (Option FetchMeta) :=
  if resp.statusCode = 202 then
    match resp.jsonBody with
    | none => .error "Response is not JSON"
    | some body =>
      .ok (some { downloadRequestId := body.downloadRequestId,
                  downloadEndPoint := bgtApiBaseUrl ++ body.statusHref })
  else if 400 ≤ resp.statusCode ∧ resp.statusCode < 600 then
    .error "HTTPError"
  else
    .ok none

/-! ## BGTDownloader.download (src/downloader/bgt.py lines 311-374)

The observable file/flow behaviour of the status-polling loop is modelled
as a trace of events: a poll (sleep + re-GET) for every 200 status, a write
per streamed chunk after a 201, a raised error.  `statusCodes` is the
sequence of status responses the polling endpoint returns, `payload` is the
chunk stream of the final download GET (`none` when that GET fails its
raise_for_status). -/

inductive DlEvent where
  | poll
  | write (chunk : Nat)
  | fail
deriving DecidableEq, Repr

def bgtDownloadTrace : List Nat → Option (List Nat) → List DlEvent
  | [], _ => []
  | s :: rest, payload =>
    if s = 200 then DlEvent.poll :: bgtDownloadTrace rest payload
    else if s = 201 then
      match payload with
      | some chunks => chunks.map DlEvent.write
      | none => [DlEvent.fail]
    else if 400 ≤ s ∧ s < 600 then [DlEvent.fail]
    else []

/-! ## multi_replace (src/utils/converter.py lines 53-62) and the
schema-location rewrite of bgt_convert (lines 198-218)

For each (old, new) pair, python runs re.sub(rf"\b{old}\b", new, text).
The stale tokens are interpolated into the pattern unescaped, so the dot
in "imgeo.xsd" and "imgeo-simple-2.1-gml31.xsd" is the regex any-character
wildcard; the word boundaries apply at the two ends of the pattern.  The
matcher below implements exactly this pattern class (literal characters
plus the any-character dot, wrapped in word boundaries) with re.sub's
leftmost, non-overlapping semantics. -/

inductive PChar where
  | lit : Char → PChar
  | anyc : PChar
deriving DecidableEq, Repr

/-- regex \w for the ASCII text involved. -/
def isWordChar (c : Char) : Bool := c.isAlphanum || c = '_'

def pcharMatches : PChar → Char → Bool
  | .lit a, c => a = c
  | .anyc, _ => true

/-- A \b sits between two positions iff exactly one side is a word
character (the ends of the string count as non-word). -/
def wordBoundary (a b : Option Char) : Bool :=
  (a.elim false isWordChar) != (b.elim false isWordChar)

/-- Remaining pattern chars against the text, tracking the last matched
character for the trailing \b. -/
def patMatch (lastc : Char) : List PChar → List Char → Bool
  | [], rest => wordBoundary (some lastc) rest.head?
  | _ :: _, [] => false
  | p :: ps, c :: cs => pcharMatches p c && patMatch c ps cs

/-- Does \b pat \b match at the start of `l`, where `prev` is the original
character just before this position (none at the string start)? -/
def matchesAt (pat : List PChar) (prev : Option Char) : List Char → Bool
  | [] => false
  | c :: cs =>
    match pat with
    | [] => false
    | p :: ps => wordBoundary prev (some c) && pcharMatches p c && patMatch c ps cs

/-- re.sub scanning: when no match starts here the character is copied;
when a match starts here the replacement is emitted and the matched
characters are consumed without being copied (`skip` counts characters of
a match still to consume).  `prev` is always the previous character of the
original text, as in re.sub. -/
def reSubGo (pat : List PChar) (repl : List Char) :
    Option Char → Nat → List Char → List Char
  | _, _, [] => []
  | _, Nat.succ k, c :: rest => reSubGo pat repl (some c) k rest
  | prev, 0, c :: rest =>
    if matchesAt pat prev (c :: rest) then
      repl ++ reSubGo pat repl (some c) (pat.length - 1) rest
    else
      c :: reSubGo pat repl (some c) 0 rest

def reSub (pat : List PChar) (repl : List Char) (text : List Char) : List Char :=
  reSubGo pat repl none 0 text

/-- The pattern rf"\b{old}\b" built by multi_replace: every character of
the phrase is literal in the regex except '.', which is the any-character
wildcard (the phrases contain no other regex metacharacters). -/
def mkWildPat (s : String) : List PChar :=
  s.data.map (fun c => if c = '.' then PChar.anyc else PChar.lit c)

/-- multi_replace(text, phrase_map): one re.sub per pair, in order. -/
def multi_replace (phraseMap : List (String × String)) (text : List Char) : List Char :=
  phraseMap.foldl (fun txt p => reSub (mkWildPat p.1) p.2.data txt) text

/-- The schema_urls table of bgt_convert (converter.py lines 177-180). -/
def schemaUrls : List (String × String) :=
  [("imgeo.xsd",
    "https://register.geostandaarden.nl/gmlapplicatieschema/imgeo/2.1.1/imgeo.xsd"),
   ("imgeo-simple-2.1-gml31.xsd",
    "https://register.geostandaarden.nl/gmlapplicatieschema/imgeo/2.1.1/imgeo-simple.xsd")]

/-- The literal token for comparison: the claim reads the rewrite as a
textual whole-word find-and-replace of the token itself, i.e. the dot taken
literally.  This definition follows the claim's words, to be compared with
multi_replace. -/
def mkLitPat (s : String) : List PChar := s.data.map PChar.lit

def literal_multi_replace (phraseMap : List (String × String)) (text : List Char) : List Char :=
  phraseMap.foldl (fun txt p => reSub (mkLitPat p.1) p.2.data txt) text

/-- Is there a \b pat \b match anywhere in the text (prev = original
previous character)? -/
def hasMatchFrom (pat : List PChar) (prev : Option Char) : List Char → Bool
  | [] => false
  | c :: cs => matchesAt pat prev (c :: cs) || hasMatchFrom pat (some c) cs

/-! ## rasterize_layers (src/processors/rasterizer.py lines 104-159)

The reference grid is height H, width W.  A geometry together with its
class-attribute value is a Shape; its pixel footprint on the reference grid
(which pixels rasterio.features.rasterize burns for it, including the
all_touched setting) is the `covers` predicate in world pixel coordinates.
A window transform produced by rio.windows.transform(window, dst.transform)
maps window-local pixel (lr, lc) to world pixel (row_off + lr, col_off + lc),
so rasterizing into a window offset by (roff, coff) tests `covers` at the
translated coordinates.  Band assignment follows arr[idx % dst.count]
(count = number of layers in stack mode, 1 in burn mode), layers with zero
features are skipped, and rasterize merges onto the existing band content
(out=arr[idx % dst.count]) with fill as the initial value. -/

structure Shape where
  covers : Nat → Nat → Bool
  val : Int

inductive MergeAlgM where
  | replace
  | add
deriving DecidableEq, Repr

def mergeStep : MergeAlgM → Int → Int → Int
  | .replace, _, v => v
  | .add, acc, v => acc + v

/-- The value of band b at window-local pixel (lr, lc) after every layer of
`layers` has been rasterized into a window at offset (roff, coff): the
loop `for idx, gdf in enumerate(gdf_list)` with
arr[idx % count] = rasterize(shapes, out=arr[idx % count], ...). -/
def rasterizeBandWin (alg : MergeAlgM) (count : Nat) (layers : List (List Shape))
    (fill : Int) (roff coff b lr lc : Nat) : Int :=
  (layers.enum).foldl
    (fun acc p =>
      if p.1 % count = b ∧ 0 < p.2.length then
        p.2.foldl
          (fun a s => if s.covers (roff + lr) (coff + lc) then mergeStep alg a s.val else a)
          acc
      else acc)
    fill

/-- The tile_size=None branch: a single rasterize pass over the full grid
(window offset 0). -/
def wholeRaster (alg : MergeAlgM) (count : Nat) (layers : List (List Shape))
    (fill : Int) (b r c : Nat) : Int :=
  rasterizeBandWin alg count layers fill 0 0 b r c

/-- itertools.product(range(0, H, th), range(0, W, tw)). -/
def tileOffsets (H W th tw : Nat) : List (Nat × Nat) :=
  (pyRange 0 H th).flatMap (fun rf => (pyRange 0 W tw).map (fun cf => (rf, cf)))

/-- The side length of Window(off, size).intersection(raster_window):
min(off + size, total) - off. -/
def clipLen (total off size : Nat) : Nat := min size (total - off)

/-- dst.write(arr, window=tile_window): pixels inside the window take the
tile array's values, the rest of the raster is untouched. -/
def writeWindow (buf : Nat → Nat → Nat → Int) (roff coff h w : Nat)
    (tile : Nat → Nat → Nat → Int) : Nat → Nat → Nat → Int :=
  fun b r c =>
    if roff ≤ r ∧ r < roff + h ∧ coff ≤ c ∧ c < coff + w then
      tile b (r - roff) (c - coff)
    else buf b r c

/-- The tiled branch of rasterize_layers: for every (row, col) tile offset,
clip the candidate window to the raster bounds, rasterize the window with
its window-local transform, and write it at the window.  A freshly created
raster holds the nodata value (fill) everywhere. -/
def tiledRaster (alg : MergeAlgM) (count : Nat) (layers : List (List Shape))
    (fill : Int) (H W th tw : Nat) : Nat → Nat → Nat → Int :=
  (tileOffsets H W th tw).foldl
    (fun buf t =>
      writeWindow buf t.1 t.2 (clipLen H t.1 th) (clipLen W t.2 tw)
        (rasterizeBandWin alg count layers fill t.1 t.2))
    (fun _ _ _ => fill)

/-- Is world pixel (r, c) inside the clipped tile window at offset t? -/
def inTile (H W th tw : Nat) (t : Nat × Nat) (r c : Nat) : Prop :=
  t.1 ≤ r ∧ r < t.1 + clipLen H t.1 th ∧ t.2 ≤ c ∧ c < t.2 + clipLen W t.2 tw

instance (H W th tw : Nat) (t : Nat × Nat) (r c : Nat) :
    Decidable (inTile H W th tw t r c) := by
  unfold inTile; infer_instance

/-! ## MapProcessor.download (src/process_map.py lines 115-149)

The generator walks the ROI features in order; a feature whose geometry
type is not in {"Polygon"} yields nothing and triggers no processing.  The
per-feature work (reprojection, BGTDownloader.download, archive naming) can
raise; it is passed in as `proc`. -/

structure ROIFeature where
  geomType : String
  featureId : Nat
deriving DecidableEq, Repr

structure WorkItem where
  featureId : Nat
  bgtZip : String
deriving DecidableEq, Repr

def mapDownload {ε : Type} (proc : ROIFeature → Except ε WorkItem) :
    List ROIFeature → Except ε (List WorkItem)
  | [] => .ok []
  | f :: rest =>
    if f.geomType = "Polygon" then
      match proc f with
      | .error e => .error e
      | .ok item =>
        match mapDownload proc rest with
        | .error e => .error e
        | .ok items => .ok (item :: items)
    else mapDownload proc rest

/-! ## Concrete instances used by witnesses and counterexamples -/

/-- A trivial stand-in for pd.to_datetime on runs that pass no
infer_datetime attributes (the function is then never applied). -/
def idParse : String → Cell → Cell := fun _ c => c

/-- A one-row, one-attribute sample layer. -/
def sampleGDF : GDF :=
  { cols := ["a"],
    rows := [{ geomType := "Polygon", emptyGeom := false,
               vals := [("a", some (Value.vInt 1))] }],
    crs := some "EPSG:28992" }

/-- sampleGDF after injecting DN = 81 (constant mapping). -/
def sampleGDF2 : GDF :=
  { cols := ["a", "DN"],
    rows := [{ geomType := "Polygon", emptyGeom := false,
               vals := [("DN", some (Value.vInt 81)), ("a", some (Value.vInt 1))] }],
    crs := some "EPSG:28992" }

/-- sampleGDF after filtering with an allow-list matching nothing: only the
placeholder row remains. -/
def sampleGDF3 : GDF :=
  { cols := ["a"], rows := [placeholderRow ["a"]], crs := some "EPSG:28992" }

/-- The geometry-type column of a prepare_data result. -/
def geomTypesOf (e : Except String GDF) : Except String (List String) :=
  e.map (fun g => g.rows.map Row.geomType)

/-- The injected-attribute column of a prepare_data result. -/
def injectedCells (e : Except String GDF) (a : String) : Except String (List Cell) :=
  e.map (fun g => g.rows.map (fun r => r.get a))

/-- A page server for 3 total hits with page size 2: full pages as the WFS
contract promises. -/
def wStreamFetch : Nat → Option (List Nat) :=
  fun m => some (List.replicate (min 2 (3 - m)) 0)

/-- Per-feature processing that fails on anything but a Polygon: exercises
that MapProcessor.download never touches skipped features. -/
def roiProcSample : ROIFeature → Except String WorkItem :=
  fun f =>
    if f.geomType = "Polygon" then .ok { featureId := f.featureId, bgtZip := "bgt.zip" }
    else .error "not reached"

def roiFeaturesSample : List ROIFeature :=
  [{ geomType := "MultiPolygon", featureId := 0 },
   { geomType := "Polygon", featureId := 1 }]

/-- A small concrete footprint for the rasterizer witness. -/
def sampleShape : Shape :=
  { covers := fun r c => decide (r ≤ 1 ∧ c ≤ 1), val := 5 }

/-! # Theorems -/

/-! ## C5: BGTDownloader.download status loop -/

/-- C5 (amended): while the status is 200 the loop only polls; a write
event can only appear after the whole run of 200 statuses, and only when
the first non-200 status is 201, in which case the payload chunks are
streamed; a 4xx/5xx terminal status raises with no byte written; any other
terminal status returns silently with no byte written (raise_for_status
does not raise outside 400-599).  In particular no byte is ever written to
the destination before a 201 status response is received. -/
theorem bgt_download_write_only_after_201 (statusCodes : List Nat)
    (payload : Option (List Nat)) :
    bgtDownloadTrace statusCodes payload =
      List.replicate (statusCodes.takeWhile (fun s => s == 200)).length DlEvent.poll ++
        (match (statusCodes.dropWhile (fun s => s == 200)).head? with
         | none => []
         | some s =>
           if s = 201 then
             (match payload with
              | some chunks => chunks.map DlEvent.write
              | none => [DlEvent.fail])
           else if 400 ≤ s ∧ s < 600 then [DlEvent.fail]
           else []) := by
  induction statusCodes with
  | nil => rfl
  | cons s rest ih =>
    by_cases h : s = 200
    · subst h
      simp only [bgtDownloadTrace, if_pos rfl, List.takeWhile_cons, List.dropWhile_cons,
        beq_self_eq_true, if_pos, List.length_cons, List.replicate_succ, List.cons_append, ih]
    · have hb : (s == 200) = false := by simp [h]
      simp only [bgtDownloadTrace, if_neg h, List.takeWhile_cons, List.dropWhile_cons, hb,
        Bool.false_eq_true, if_neg, List.length_nil, List.replicate_zero, List.nil_append,
        List.head?_cons, ite_false]

/-- C5 counterexample: a terminal 204 after one poll raises nothing (and
writes nothing): the claim that any non-200/201 terminal status raises an
error is false, because raise_for_status only raises for 4xx/5xx. -/
theorem bgt_download_silent_status_counterexample :
    bgtDownloadTrace [200, 204] (some [7]) = [DlEvent.poll] ∧
      DlEvent.fail ∉ ([DlEvent.poll] : List DlEvent) ∧
      (204 : Nat) ≠ 200 ∧ (204 : Nat) ≠ 201 :=
  ⟨rfl, by decide, by decide, by decide⟩

/-! ## C6: BGTDownloader.fetch -/

/-- C6 (amended): fetch raises for a 202 response whose body is not
parseable as JSON, and for any 4xx/5xx response; for a 202 response with a
JSON body it returns the request id and the status-polling endpoint
(base URL ++ status href); a non-202 response outside 400-599 is neither
an error nor a result: fetch returns None without raising, because
raise_for_status does not raise for it. -/
theorem bgt_fetch_status_handling (resp : HttpResponse) :
    (resp.statusCode = 202 → resp.jsonBody = none →
      ∃ e, bgtFetch resp = .error e) ∧
    (∀ body, resp.statusCode = 202 → resp.jsonBody = some body →
      bgtFetch resp =
        .ok (some { downloadRequestId := body.downloadRequestId,
                    downloadEndPoint := bgtApiBaseUrl ++ body.statusHref })) ∧
    (resp.statusCode ≠ 202 → 400 ≤ resp.statusCode → resp.statusCode < 600 →
      ∃ e, bgtFetch resp = .error e) ∧
    (resp.statusCode ≠ 202 → ¬(400 ≤ resp.statusCode ∧ resp.statusCode < 600) →
      bgtFetch resp = .ok none) := by
  refine ⟨?_, ?_, ?_, ?_⟩
  · intro h202 hjson
    refine ⟨"Response is not JSON", ?_⟩
    simp [bgtFetch, h202, hjson]
  · intro body h202 hjson
    simp [bgtFetch, h202, hjson]
  · intro hne h4 h6
    refine ⟨"HTTPError", ?_⟩
    simp [bgtFetch, hne, h4, h6]
  · intro hne hout
    simp [bgtFetch, hne, hout]

/-- C6 witness: a 202 response with a JSON body yields the id and the
status endpoint. -/
theorem bgt_fetch_status_handling_witness :
    bgtFetch { statusCode := 202, jsonBody := some { downloadRequestId := "abc",
                                                     statusHref := "/status/abc" } } =
      .ok (some { downloadRequestId := "abc",
                  downloadEndPoint := bgtApiBaseUrl ++ "/status/abc" }) :=
  (bgt_fetch_status_handling _).2.1 _ rfl rfl

/-- C6 counterexample: a 200 response is not a 202, yet fetch raises
nothing — it returns None (raise_for_status is a no-op below 400), so the
claim that every non-202 response raises an error is false. -/
theorem bgt_fetch_nonraising_counterexample :
    bgtFetch { statusCode := 200, jsonBody := none } = .ok none ∧ (200 : Nat) ≠ 202 :=
  ⟨rfl, by decide⟩

/-! ## C7: fid/FID renaming in stream_feature -/

/-- C7 (amended): on each fetched page, a pre-existing `fid` column is
renamed by appending fid_suffix, while a pre-existing `FID` column is
renamed by appending the upper-cased fid_suffix (f-string
FID{fid_suffix.upper()}); the call raises whenever either renamed name is
already a column of the page before renaming. -/
theorem stream_feature_fid_rename (columns : List String) (fidSuffix : String) :
    ((("fid" ++ fidSuffix) ∈ columns ∨ ("FID" ++ pyUpper fidSuffix) ∈ columns) →
      ∃ e, renameFidColumns columns fidSuffix = .error e) ∧
    (("fid" ++ fidSuffix) ∉ columns → ("FID" ++ pyUpper fidSuffix) ∉ columns →
      renameFidColumns columns fidSuffix =
        .ok (columns.map (fun c =>
          if c = "fid" then "fid" ++ fidSuffix
          else if c = "FID" then "FID" ++ pyUpper fidSuffix
          else c))) := by
  constructor
  · intro hmem
    have hany : (fidColumnMappings fidSuffix).any (fun p => columns.contains p.2) = true := by
      rcases hmem with h | h <;>
        simp [fidColumnMappings, List.any_cons, List.any_nil] <;>
        [exact Or.inl h; exact Or.inr h]
    refine ⟨"Attribute already exists", ?_⟩
    rw [renameFidColumns, if_pos hany]
  · intro h1 h2
    have hany : ¬((fidColumnMappings fidSuffix).any (fun p => columns.contains p.2) = true) := by
      simp [fidColumnMappings, List.any_cons, List.any_nil]
      exact ⟨h1, h2⟩
    rw [renameFidColumns, if_neg hany]
    congr 1
    apply List.map_congr_left
    intro c _
    by_cases hc : c = "fid"
    · subst hc
      simp [fidColumnMappings, List.lookup]
    · by_cases hC : c = "FID"
      · subst hC
        simp [fidColumnMappings, List.lookup]
      · have b1 : (c == "fid") = false := by simp [hc]
        have b2 : (c == "FID") = false := by simp [hC]
        simp [fidColumnMappings, List.lookup, b1, b2, hc, hC]

/-- C7 witness: a collision-free page with a `fid` column is renamed. -/
theorem stream_feature_fid_rename_witness :
    renameFidColumns ["id", "fid"] "_original" = .ok ["id", "fid_original"] := by
  rw [(stream_feature_fid_rename ["id", "fid"] "_original").2 (by decide) (by decide)]
  rfl

/-- C7 counterexample: with the default fid_suffix "_original", the `FID`
column is renamed to "FID_ORIGINAL", not to "FID_original" as the claim
("appending fid_suffix to its name") states. -/
theorem stream_feature_fid_rename_counterexample :
    renameFidColumns ["FID"] "_original" = .ok ["FID_ORIGINAL"] ∧
      ("FID_ORIGINAL" : String) ≠ "FID" ++ "_original" := by
  constructor
  · rfl
  · decide

/-! ## C10: MapProcessor.download skips non-Polygon features -/

/-- C10: the download generator only processes features whose geometry
type is exactly "Polygon"; every other feature (MultiPolygon included)
yields no work item and triggers no error — the whole run equals the run
over the Polygon-only sublist, and it succeeds as soon as processing
succeeds on the Polygon features, whatever proc would do elsewhere. -/
theorem map_download_skips_non_polygon {ε : Type} (proc : ROIFeature → Except ε WorkItem)
    (features : List ROIFeature)
    (hproc : ∀ f ∈ features, f.geomType = "Polygon" → ∃ item, proc f = .ok item) :
    ∃ items, mapDownload proc features = .ok items ∧
      mapDownload proc features =
        mapDownload proc (features.filter (fun f => f.geomType = "Polygon")) ∧
      items.length = (features.filter (fun f => f.geomType = "Polygon")).length := by
  induction features with
  | nil => exact ⟨[], rfl, rfl, rfl⟩
  | cons f rest ih =>
    obtain ⟨items, hok, heq, hlen⟩ :=
      ih (fun f' hf' => hproc f' (List.mem_cons_of_mem _ hf'))
    by_cases hp : f.geomType = "Polygon"
    · obtain ⟨item, hitem⟩ := hproc f (List.mem_cons_self _ _) hp
      refine ⟨item :: items, ?_, ?_, ?_⟩
      · simp only [mapDownload, if_pos hp, hitem, hok]
      · have hdp : decide (f.geomType = "Polygon") = true := by simp [hp]
        simp only [mapDownload, List.filter_cons, hdp, if_pos hp, hitem, ite_true, hok,
          heq ▸ hok]
      · simp [List.filter_cons, hp, hlen]
    · refine ⟨items, ?_, ?_, ?_⟩
      · simp only [mapDownload, if_neg hp, hok]
      · have : (rest.filter (fun f => f.geomType = "Polygon")) =
            ((f :: rest).filter (fun f => f.geomType = "Polygon")) := by
          simp [List.filter_cons, hp]
        simp only [mapDownload, if_neg hp]
        rw [heq, this]
      · simp [List.filter_cons, hp, hlen]

/-- C10 witness: a MultiPolygon feature on which processing would fail is
skipped silently; the Polygon feature is processed. -/
theorem map_download_skips_non_polygon_witness :
    mapDownload roiProcSample roiFeaturesSample =
      mapDownload roiProcSample (roiFeaturesSample.filter (fun f => f.geomType = "Polygon")) := by
  obtain ⟨items, hok, heq, hlen⟩ :=
    map_download_skips_non_polygon roiProcSample roiFeaturesSample
      (by
        intro f hf hp
        fin_cases hf
        · exact absurd hp (by decide)
        · exact ⟨_, rfl⟩)
  exact heq

/-! ## C3: stream_feature pagination -/

theorem pyRange_nil {start stop step : Nat} (h : stop ≤ start) :
    pyRange start stop step = [] := by
  simp [pyRange, h]

theorem pyRange_cons {start stop step : Nat} (hstep : 0 < step) (h : start < stop) :
    pyRange start stop step = start :: pyRange (start + step) stop step := by
  unfold pyRange
  rw [if_neg (by omega)]
  by_cases h2 : stop ≤ start + step
  · rw [if_pos h2]
    have hz : (stop - start - 1) / step = 0 := Nat.div_eq_of_lt (by omega)
    rw [hz, List.range'_succ]
  · rw [if_neg h2]
    have hdiv : (stop - start - 1) / step = (stop - (start + step) - 1) / step + 1 := by
      have hle : step ≤ stop - start - 1 := by omega
      rw [Nat.div_eq_sub_div hstep hle]
      congr 2
      omega
    rw [hdiv, List.range'_succ]

/-- len(range(0, N, P)) = ceil(N / P). -/
theorem pyRange_length_ceil (totalHits pageSize : Nat) (hP : 0 < pageSize) :
    (pyRange 0 totalHits pageSize).length = (totalHits + pageSize - 1) / pageSize := by
  unfold pyRange
  rcases Nat.eq_zero_or_pos totalHits with h | h
  · subst h
    rw [if_pos (by omega)]
    simp [Nat.div_eq_of_lt (by omega : pageSize - 1 < pageSize)]
  · rw [if_neg (by omega), List.length_range']
    have hstep : (totalHits + pageSize - 1) / pageSize =
        (totalHits + pageSize - 1 - pageSize) / pageSize + 1 :=
      Nat.div_eq_sub_div hP (by omega)
    rw [hstep]
    congr 2
    omega

/-- Concatenating the per-page index ranges over all markers yields the
contiguous range from the start marker to the total. -/
theorem pyRange_flatMap_range' (totalHits pageSize : Nat) (hP : 0 < pageSize)
    (s : Nat) :
    (pyRange s totalHits pageSize).flatMap
        (fun m => List.range' m (min pageSize (totalHits - m))) =
      List.range' s (totalHits - s) := by
  by_cases h : totalHits ≤ s
  · rw [pyRange_nil h]
    simp [Nat.sub_eq_zero_of_le h]
  · rw [pyRange_cons hP (by omega), List.flatMap_cons]
    by_cases h2 : totalHits - s ≤ pageSize
    · have hmin : min pageSize (totalHits - s) = totalHits - s := by omega
      rw [pyRange_nil (by omega), hmin]
      simp
    · have hmin : min pageSize (totalHits - s) = pageSize := by omega
      rw [hmin, pyRange_flatMap_range' totalHits pageSize hP (s + pageSize)]
      have happ := List.range'_append s pageSize (totalHits - (s + pageSize)) 1
      rw [show s + 1 * pageSize = s + pageSize by ring] at happ
      rw [happ]
      congr 1
      omega
termination_by totalHits - s
decreasing_by omega

theorem streamGo_ok {α : Type} (fetchPage : Nat → Option (List α)) (pageLen : Nat → Nat) :
    ∀ (ms : List Nat) (acc : List (Nat × α)),
      (∀ m ∈ ms, ∃ page, fetchPage m = some page ∧ page.length = pageLen m) →
      ∃ out, streamGo fetchPage ms acc = .ok out ∧
        out.map Prod.fst =
          acc.map Prod.fst ++ ms.flatMap (fun m => List.range' m (pageLen m))
  | [], acc, _ => ⟨acc, rfl, by simp⟩
  | m :: ms, acc, h => by
    obtain ⟨page, hfp, hlen⟩ := h m (List.mem_cons_self _ _)
    obtain ⟨out, hgo, hmap⟩ :=
      streamGo_ok fetchPage pageLen ms (acc ++ indexPairs m page)
        (fun m' hm' => h m' (List.mem_cons_of_mem _ hm'))
    refine ⟨out, ?_, ?_⟩
    · simp only [streamGo, hfp, hgo]
    · rw [hmap, List.flatMap_cons]
      have hfst : (indexPairs m page).map Prod.fst = List.range' m (pageLen m) := by
        rw [indexPairs, List.map_fst_zip _ _ (by rw [List.length_range']), hlen]
      rw [List.map_append, hfst, List.append_assoc]

theorem streamGo_error {α : Type} (fetchPage : Nat → Option (List α)) :
    ∀ (ms : List Nat) (acc : List (Nat × α)), (∃ m ∈ ms, fetchPage m = none) →
      ∃ e, streamGo fetchPage ms acc = .error e
  | [], _, h => by simp at h
  | m :: ms, acc, h => by
    cases hfp : fetchPage m with
    | none => exact ⟨"page fetch failed", by simp only [streamGo, hfp]⟩
    | some page =>
      obtain ⟨m', hm', hnone⟩ := h
      have hmem : m' ∈ ms := by
        rcases List.mem_cons.mp hm' with rfl | h2
        · rw [hfp] at hnone
          cases hnone
        · exact h2
      obtain ⟨e, he⟩ :=
        streamGo_error fetchPage ms (acc ++ indexPairs m page) ⟨m', hmem, hnone⟩
      exact ⟨e, by simp only [streamGo, hfp, he]⟩

/-- C3: with page size P > 0 and start index 0, stream_feature issues
exactly ceil(N/P) page fetches (one per marker of range(0, N, P)); when
the service returns each page in full (min(P, N - marker) rows), the call
succeeds and the globally re-indexed rows carry exactly the contiguous
indices 0 .. N-1; and whenever any page fetch fails, the whole call
returns an error instead of a truncated result. -/
theorem stream_feature_pagination {α : Type} (totalHits pageSize : Nat)
    (fetchPage : Nat → Option (List α)) (hP : 0 < pageSize)
    (hfetch : ∀ m ∈ pyRange 0 totalHits pageSize,
      ∃ page, fetchPage m = some page ∧ page.length = min pageSize (totalHits - m)) :
    (pyRange 0 totalHits pageSize).length = (totalHits + pageSize - 1) / pageSize ∧
    (∃ out, stream_feature totalHits pageSize 0 fetchPage = .ok out ∧
      out.map Prod.fst = List.range totalHits ∧ out.length = totalHits) ∧
    (∀ fetchPage2 : Nat → Option (List α),
      (∃ m ∈ pyRange 0 totalHits pageSize, fetchPage2 m = none) →
      ∃ e, stream_feature totalHits pageSize 0 fetchPage2 = .error e) := by
  refine ⟨pyRange_length_ceil totalHits pageSize hP, ?_, ?_⟩
  · obtain ⟨out, hgo, hmap⟩ :=
      streamGo_ok fetchPage (fun m => min pageSize (totalHits - m))
        (pyRange 0 totalHits pageSize) [] hfetch
    have hfst : out.map Prod.fst = List.range totalHits := by
      rw [hmap]
      rw [pyRange_flatMap_range' totalHits pageSize hP 0]
      simp [List.range_eq_range']
    refine ⟨out, hgo, hfst, ?_⟩
    have := congrArg List.length hfst
    simpa using this
  · intro fetchPage2 hfail
    exact streamGo_error fetchPage2 (pyRange 0 totalHits pageSize) [] hfail

/-- C3 witness: 3 hits with page size 2 make ceil(3/2) = 2 pages. -/
theorem stream_feature_pagination_witness :
    (pyRange 0 3 2).length = (3 + 2 - 1) / 2 :=
  (stream_feature_pagination 3 2 wStreamFetch (by decide)
    (by
      intro m hm
      exact ⟨List.replicate (min 2 (3 - m)) 0, rfl, by simp⟩)).1

/-! ## prepare_data helper lemmas (C1, C2, C9) -/

theorem lookup_filter_ne {β : Type} (l : List (String × β)) (a b : String) (h : b ≠ a) :
    (l.filter (fun p => !decide (p.1 = a))).lookup b = l.lookup b := by
  induction l with
  | nil => rfl
  | cons p rest ih =>
    obtain ⟨pk, pv⟩ := p
    rw [List.filter_cons]
    by_cases hp : pk = a
    · rw [if_neg (by simp [hp])]
      rw [ih, List.lookup_cons]
      have hb : (b == pk) = false := by
        subst hp
        simp [h]
      simp [hb]
    · rw [if_pos (by simp [hp])]
      rw [List.lookup_cons, List.lookup_cons]
      by_cases hb : b = pk
      · subst hb
        simp
      · have hbb : (b == pk) = false := by simp [hb]
        simp [hbb, ih]

theorem Row.get_set_self (r : Row) (a : String) (c : Cell) : (r.set a c).get a = c := by
  simp [Row.set, Row.get, List.lookup_cons]

theorem Row.get_set_ne (r : Row) (a b : String) (c : Cell) (h : b ≠ a) :
    (r.set a c).get b = r.get b := by
  have hb : (b == a) = false := by simp [h]
  simp only [Row.set, Row.get, List.lookup_cons]
  simp [hb, lookup_filter_ne r.vals a b h]

theorem coerceDatetime_ok_shape (parse : String → Cell → Cell) (cols : List String) :
    ∀ (idt : List (String × String)) (rows rows' : List Row),
      coerceDatetime parse cols idt rows = .ok rows' →
      rows'.length = rows.length ∧
      (∀ r' ∈ rows', ∃ r ∈ rows, r'.geomType = r.geomType ∧ r'.emptyGeom = r.emptyGeom)
  | [], rows, rows', h => by
    cases h
    exact ⟨rfl, fun r' hr' => ⟨r', hr', rfl, rfl⟩⟩
  | (attr, fmt) :: rest, rows, rows', h => by
    by_cases hc : cols.contains attr
    · rw [coerceDatetime, if_pos hc] at h
      obtain ⟨hlen, hmem⟩ := coerceDatetime_ok_shape parse cols rest _ rows' h
      refine ⟨by rw [hlen, List.length_map], ?_⟩
      intro r' hr'
      obtain ⟨rm, hrm, hg, he⟩ := hmem r' hr'
      obtain ⟨r0, hr0, rfl⟩ := List.mem_map.mp hrm
      exact ⟨r0, hr0, hg, he⟩
    · rw [coerceDatetime, if_neg hc] at h
      cases h

theorem sortRows_ok_shape (sb : Option String) (asc : Bool) (cols : List String)
    (rows rows' : List Row) (h : sortRows sb asc cols rows = .ok rows') :
    rows'.length = rows.length ∧ ∀ r ∈ rows', r ∈ rows := by
  cases sb with
  | none =>
    cases h
    exact ⟨rfl, fun r hr => hr⟩
  | some k =>
    rw [sortRows] at h
    by_cases hc : cols.contains k
    · rw [if_pos hc] at h
      cases h
      exact ⟨List.length_mergeSort rows, fun r hr => List.mem_mergeSort.mp hr⟩
    · rw [if_neg hc] at h
      cases h

theorem mem_addCol (cols : List String) (a : String) : a ∈ addCol cols a := by
  unfold addCol
  by_cases hc : cols.contains a
  · rw [if_pos hc]
    simpa using hc
  · rw [if_neg hc]
    simp

theorem cellFill_ne_none (df : Cell) (hdf : df ≠ none) (x : Cell) :
    ∃ v, cellFill df x = some v := by
  cases x with
  | none =>
    cases df with
    | none => exact absurd rfl hdf
    | some d => exact ⟨d, rfl⟩
  | some v => exact ⟨v, rfl⟩

theorem eq_singleton_of_shape {α : Type} (l : List α) (p : α) (h1 : l.length = 1)
    (h2 : ∀ x ∈ l, x = p) : l = [p] := by
  match l, h1 with
  | [x], _ => rw [h2 x (by simp)]

/-! ## C1: geometry filtering and the placeholder row -/

/-- C1 (amended): for a non-empty allow-list G, prepare_data never returns
an empty layer, preserves the column schema and the CRS, and every output
row has geometry type in G whenever filtering leaves at least one row; when
filtering leaves zero rows the output is exactly one synthetic row whose
geometry is an empty MultiPolygon (its type is "MultiPolygon", not
necessarily a member of G — the uncorrected claim fails there) with every
original attribute column missing.  Stated for runs that inject no new
attribute (new_attr = None); the injected-attribute path is the subject of
C2. -/
theorem prepare_data_filter_placeholder (gdf : GDF) (g : List String)
    (idt : List (String × String)) (parse : String → Cell → Cell)
    (sb : Option String) (asc : Bool) (out : GDF) (_hg : g ≠ [])
    (h : prepare_data gdf (some g) idt parse none none (ValueMap.const none) none sb asc
      = .ok out) :
    out.rows ≠ [] ∧ out.cols = gdf.cols ∧ out.crs = gdf.crs ∧
    (gdf.rows.filter (fun r => g.contains r.geomType) ≠ [] →
      ∀ r ∈ out.rows, r.geomType ∈ g) ∧
    (gdf.rows.filter (fun r => g.contains r.geomType) = [] →
      out.rows = [placeholderRow gdf.cols]) := by
  have hF : filterGeom (some g) gdf.rows = gdf.rows.filter (fun r => g.contains r.geomType) :=
    rfl
  unfold prepare_data at h
  cases hco : coerceDatetime parse gdf.cols idt (filterGeom (some g) gdf.rows) with
  | error e => rw [hco] at h; cases h
  | ok rows2 =>
    rw [hco] at h
    dsimp only [injectAttr] at h
    cases hso : sortRows sb asc gdf.cols
        (if rows2.isEmpty then rows2 ++ [placeholderRow gdf.cols] else rows2) with
    | error e => rw [hso] at h; cases h
    | ok rows5 =>
      rw [hso] at h
      injection h with h
      subst h
      obtain ⟨hlen2, hmem2⟩ := coerceDatetime_ok_shape parse gdf.cols idt _ rows2 hco
      obtain ⟨hlen5, hmem5⟩ := sortRows_ok_shape sb asc gdf.cols _ rows5 hso
      rw [hF] at hlen2 hmem2
      refine ⟨?_, rfl, rfl, ?_, ?_⟩
      · have : 0 < rows5.length := by
          rw [hlen5]
          by_cases he : rows2.isEmpty <;> simp [he]
          exact List.length_pos.mpr (by simpa using he)
        exact List.ne_nil_of_length_pos this
      · intro hne r hr
        have h2 : rows2 ≠ [] := by
          have : 0 < rows2.length := by
            rw [hlen2]
            exact List.length_pos.mpr hne
          exact List.ne_nil_of_length_pos this
        have he : rows2.isEmpty = false := by simpa using h2
        rw [he] at hmem5
        simp only [Bool.false_eq_true, if_neg] at hmem5
        have hr2 : r ∈ rows2 := hmem5 r hr
        obtain ⟨r0, hr0, hg0, _⟩ := hmem2 r hr2
        have := List.mem_filter.mp hr0
        rw [hg0]
        simpa using this.2
      · intro hnil
        have h2 : rows2 = [] := by
          have : rows2.length = 0 := by
            rw [hlen2, hnil]
            rfl
          exact List.length_eq_zero.mp this
        subst h2
        simp only [List.isEmpty_nil, if_pos, List.nil_append] at hmem5 hlen5
        refine eq_singleton_of_shape rows5 (placeholderRow gdf.cols) (by simpa using hlen5) ?_
        intro x hx
        simpa using hmem5 x hx

/-- C1 witness: a one-row Polygon layer passes through the filter. -/
theorem prepare_data_filter_placeholder_witness :
    (["Polygon"] : List String) ≠ [] ∧ sampleGDF.rows ≠ [] :=
  ⟨by decide,
    (prepare_data_filter_placeholder sampleGDF ["Polygon"] [] idParse none true sampleGDF
      (by decide) rfl).1⟩

/-- C1 counterexample: with allow-list G = Point only and a layer that
filtering empties, the appended placeholder row has geometry type
MultiPolygon, which is not in G — the claim that every row of the result
has geometry type in G is false. -/
theorem prepare_data_filter_placeholder_counterexample :
    geomTypesOf (prepare_data sampleGDF (some ["Point"]) [] idParse none none
        (ValueMap.const none) none none true) = .ok ["MultiPolygon"] ∧
      ¬(("MultiPolygon" : String) ∈ (["Point"] : List String)) :=
  ⟨rfl, by decide⟩

/-! ## C2: the injected attribute -/

/-- C2 (amended): when prepare_data succeeds while injecting new_attr, the
attribute is a column of the output and — provided the constant mapping is
itself non-null (dictionary mappings always pass through fillna, whose
fill must be non-null for the call to succeed at all) — it is non-null in
every output row; for a dictionary mapping keyed on a source attribute
distinct from the new attribute, every output row carries exactly
fillna(default_fill) of the dictionary lookup of its source value, so
missed lookups and missing source values receive the default fill.  The
uncorrected claim fails for the null constant mapping value_map = None. -/
theorem prepare_data_inject_attr (gdf : GDF) (gt : Option (List String))
    (idt : List (String × String)) (parse : String → Cell → Cell)
    (a : String) (ia : Option String) (vm : ValueMap) (df : Cell)
    (sb : Option String) (asc : Bool) (out : GDF)
    (hnn : ∀ c, vm = ValueMap.const c → c ≠ none)
    (h : prepare_data gdf gt idt parse (some a) ia vm df sb asc = .ok out) :
    a ∈ out.cols ∧
    (∀ r ∈ out.rows, ∃ v, r.get a = some v) ∧
    (∀ m i, vm = ValueMap.table m → ia = some i → i ≠ a →
      ∀ r ∈ out.rows, r.get a = cellFill df (mapLookup m (r.get i))) := by
  unfold prepare_data at h
  cases hco : coerceDatetime parse gdf.cols idt (filterGeom gt gdf.rows) with
  | error e => rw [hco] at h; cases h
  | ok rows2 =>
    rw [hco] at h
    cases vm with
    | const c =>
      have hc : c ≠ none := hnn c rfl
      dsimp only [injectAttr] at h
      cases hso : sortRows sb asc (addCol gdf.cols a)
          ((if rows2.isEmpty then rows2 ++ [placeholderRow gdf.cols] else rows2).map
            (fun r => r.set a c)) with
      | error e => rw [hso] at h; cases h
      | ok rows5 =>
        rw [hso] at h
        injection h with h
        subst h
        obtain ⟨_, hmem5⟩ := sortRows_ok_shape sb asc _ _ rows5 hso
        refine ⟨mem_addCol gdf.cols a, ?_, ?_⟩
        · intro r hr
          obtain ⟨r0, _, rfl⟩ := List.mem_map.mp (hmem5 r hr)
          rw [Row.get_set_self]
          cases c with
          | none => exact absurd rfl hc
          | some v => exact ⟨v, rfl⟩
        · intro m i hvm
          exact absurd hvm (by simp)
    | table m =>
      cases ia with
      | none => dsimp only [injectAttr] at h; cases h
      | some i0 =>
        dsimp only [injectAttr] at h
        by_cases hia : gdf.cols.contains i0
        · rw [if_pos hia] at h
          by_cases hdf : df = none
          · rw [if_pos hdf] at h
            cases h
          · rw [if_neg hdf] at h
            dsimp only at h
            cases hso : sortRows sb asc (addCol gdf.cols a)
                ((if rows2.isEmpty then rows2 ++ [placeholderRow gdf.cols] else rows2).map
                  (fun r => r.set a (cellFill df (mapLookup m (r.get i0))))) with
            | error e => rw [hso] at h; cases h
            | ok rows5 =>
              rw [hso] at h
              injection h with h
              subst h
              obtain ⟨_, hmem5⟩ := sortRows_ok_shape sb asc _ _ rows5 hso
              refine ⟨mem_addCol gdf.cols a, ?_, ?_⟩
              · intro r hr
                obtain ⟨r0, _, rfl⟩ := List.mem_map.mp (hmem5 r hr)
                rw [Row.get_set_self]
                exact cellFill_ne_none df hdf _
              · intro m' i hvm hi0 hne r hr
                injection hvm with hvm
                subst hvm
                injection hi0 with hi0
                subst hi0
                obtain ⟨r0, _, rfl⟩ := List.mem_map.mp (hmem5 r hr)
                rw [Row.get_set_self, Row.get_set_ne r0 a i0 _ hne]
        · rw [if_neg hia] at h
          cases h

/-- C2 witness: injecting the constant class code 81 as DN leaves a
present, non-null DN in the (single) output row. -/
theorem prepare_data_inject_attr_witness :
    ("DN" : String) ∈ sampleGDF2.cols :=
  (prepare_data_inject_attr sampleGDF none [] idParse "DN" none
      (ValueMap.const (some (Value.vInt 81))) none none true sampleGDF2
      (by intro c hc; cases hc; simp) rfl).1

/-- C2 counterexample: with the constant mapping value_map = None (a legal
BASE value), the injected DN column is null in every output row — the
claim that the injected attribute is never missing/null is false. -/
theorem prepare_data_inject_attr_counterexample :
    injectedCells (prepare_data sampleGDF none [] idParse (some "DN") none
        (ValueMap.const none) none none true) "DN" = .ok [none] :=
  rfl

/-! ## C9: new_attr = None leaves the column set unchanged -/

/-- C9: prepare_data with new_attr = None neither adds nor removes an
attribute column (and keeps the CRS): only row filtering, the placeholder
row, datetime value coercion and sorting touch the data. -/
theorem prepare_data_none_attr_cols (gdf : GDF) (gt : Option (List String))
    (idt : List (String × String)) (parse : String → Cell → Cell)
    (ia : Option String) (vm : ValueMap) (df : Cell)
    (sb : Option String) (asc : Bool) (out : GDF)
    (h : prepare_data gdf gt idt parse none ia vm df sb asc = .ok out) :
    out.cols = gdf.cols ∧ out.crs = gdf.crs := by
  unfold prepare_data at h
  cases hco : coerceDatetime parse gdf.cols idt (filterGeom gt gdf.rows) with
  | error e => rw [hco] at h; cases h
  | ok rows2 =>
    rw [hco] at h
    dsimp only [injectAttr] at h
    cases hso : sortRows sb asc gdf.cols
        (if rows2.isEmpty then rows2 ++ [placeholderRow gdf.cols] else rows2) with
    | error e => rw [hso] at h; cases h
    | ok rows5 =>
      rw [hso] at h
      injection h with h
      subst h
      exact ⟨rfl, rfl⟩

/-- C9 witness: a run that replaces all rows by the placeholder still
keeps the column set. -/
theorem prepare_data_none_attr_cols_witness :
    sampleGDF3.cols = sampleGDF.cols :=
  (prepare_data_none_attr_cols sampleGDF (some []) [] idParse none
      (ValueMap.const none) none none true sampleGDF3 rfl).1

/-! ## C8: the schema-location rewrite -/

theorem reSubGo_no_match (pat : List PChar) (repl : List Char) :
    ∀ (t : List Char) (prev : Option Char), hasMatchFrom pat prev t = false →
      reSubGo pat repl prev 0 t = t
  | [], _, _ => rfl
  | c :: rest, prev, h => by
    rw [hasMatchFrom] at h
    cases hm : matchesAt pat prev (c :: rest) with
    | true =>
      rw [hm] at h
      simp at h
    | false =>
      rw [hm] at h
      simp only [Bool.false_or] at h
      show (if matchesAt pat prev (c :: rest) = true then
          repl ++ reSubGo pat repl (some c) (pat.length - 1) rest
        else c :: reSubGo pat repl (some c) 0 rest) = c :: rest
      rw [if_neg (by simp [hm])]
      rw [reSubGo_no_match pat repl rest (some c) h]

/-- C8 (amended): multi_replace performs, for each stale token, re.sub of
the pattern formed by wrapping the token in word boundaries with its dot
left unescaped, so the dot matches any single character.  Any text with no
such (wildcard) match anywhere is left unchanged, and the two stale tokens
themselves are rewritten, at word boundaries, to their canonical URLs.
The uncorrected claim — that exactly the whole-word occurrences of the
literal tokens are replaced and all other text is untouched — fails on
lookalike strings such as "imgeoXxsd". -/
theorem multi_replace_schema_urls (t : List Char) :
    (hasMatchFrom (mkWildPat "imgeo.xsd") none t = false →
      hasMatchFrom (mkWildPat "imgeo-simple-2.1-gml31.xsd") none t = false →
      multi_replace schemaUrls t = t) ∧
    multi_replace schemaUrls "imgeo.xsd".data =
      "https://register.geostandaarden.nl/gmlapplicatieschema/imgeo/2.1.1/imgeo.xsd".data ∧
    multi_replace schemaUrls "a imgeo-simple-2.1-gml31.xsd b".data =
      "a https://register.geostandaarden.nl/gmlapplicatieschema/imgeo/2.1.1/imgeo-simple.xsd b".data := by
  refine ⟨?_, by decide, by decide⟩
  intro h1 h2
  show reSub (mkWildPat "imgeo-simple-2.1-gml31.xsd") _
      (reSub (mkWildPat "imgeo.xsd") _ t) = t
  simp only [reSub]
  rw [reSubGo_no_match _ _ t none h1, reSubGo_no_match _ _ t none h2]

/-- C8 witness: a token-free text is left unchanged. -/
theorem multi_replace_schema_urls_witness :
    multi_replace schemaUrls "hello gml.xsd".data = "hello gml.xsd".data :=
  (multi_replace_schema_urls "hello gml.xsd".data).1 (by decide) (by decide)

/-- C8 counterexample: "imgeoXxsd" contains neither stale token, and the
literal whole-word replacement the claim describes leaves it unchanged,
yet multi_replace rewrites it (the unescaped dot matches the X). -/
theorem multi_replace_wildcard_counterexample :
    literal_multi_replace schemaUrls "imgeoXxsd".data = "imgeoXxsd".data ∧
      multi_replace schemaUrls "imgeoXxsd".data ≠ "imgeoXxsd".data := by
  exact ⟨by decide, by decide⟩

/-! ## C4: tiled rasterization equals whole-grid rasterization -/

theorem mem_pyRange_zero {stop step x : Nat} (hstep : 0 < step) :
    x ∈ pyRange 0 stop step ↔ ∃ k, x = step * k ∧ x < stop := by
  unfold pyRange
  by_cases h : stop = 0
  · subst h
    simp
  · rw [if_neg (by omega), List.mem_range']
    constructor
    · rintro ⟨i, hi, rfl⟩
      refine ⟨i, Nat.zero_add _ ▸ rfl, ?_⟩
      have h1 : i ≤ (stop - 0 - 1) / step := Nat.lt_succ_iff.mp hi
      have h2 : i * step ≤ stop - 0 - 1 := (Nat.le_div_iff_mul_le hstep).mp h1
      have h3 : i * step ≤ stop - 1 := by simpa using h2
      calc 0 + step * i = i * step := by rw [Nat.zero_add, Nat.mul_comm]
        _ ≤ stop - 1 := h3
        _ < stop := Nat.sub_lt (by omega) (by omega)
    · rintro ⟨k, rfl, hk⟩
      refine ⟨k, ?_, (Nat.zero_add _).symm⟩
      have h2 : k * step ≤ stop - 1 := Nat.le_sub_one_of_lt (Nat.mul_comm step k ▸ hk)
      have h1 : k ≤ (stop - 1) / step := (Nat.le_div_iff_mul_le hstep).mpr h2
      have h0 : k ≤ (stop - 0 - 1) / step := by simpa using h1
      exact Nat.lt_succ_iff.mpr h0

theorem mem_tileOffsets {H W th tw : Nat} (t : Nat × Nat) :
    t ∈ tileOffsets H W th tw ↔ t.1 ∈ pyRange 0 H th ∧ t.2 ∈ pyRange 0 W tw := by
  unfold tileOffsets
  rw [List.mem_flatMap]
  constructor
  · rintro ⟨rf, hrf, hmem⟩
    obtain ⟨cf, hcf, rfl⟩ := List.mem_map.mp hmem
    exact ⟨hrf, hcf⟩
  · rintro ⟨h1, h2⟩
    exact ⟨t.1, h1, List.mem_map.mpr ⟨t.2, h2, rfl⟩⟩

theorem tiled_fold_untouched (alg : MergeAlgM) (count : Nat) (layers : List (List Shape))
    (fill : Int) (H W th tw : Nat) (b r c : Nat) :
    ∀ (L : List (Nat × Nat)) (buf : Nat → Nat → Nat → Int),
      (∀ t ∈ L, ¬ inTile H W th tw t r c) →
      (L.foldl (fun buf t =>
        writeWindow buf t.1 t.2 (clipLen H t.1 th) (clipLen W t.2 tw)
          (rasterizeBandWin alg count layers fill t.1 t.2)) buf) b r c = buf b r c
  | [], buf, _ => rfl
  | t0 :: L, buf, h => by
    rw [List.foldl_cons,
      tiled_fold_untouched alg count layers fill H W th tw b r c L _
        (fun t ht => h t (List.mem_cons_of_mem _ ht))]
    exact if_neg (h t0 (List.mem_cons_self _ _))

theorem tiled_fold_covered (alg : MergeAlgM) (count : Nat) (layers : List (List Shape))
    (fill : Int) (H W th tw : Nat) (b r c : Nat) (v : Int) :
    ∀ (L : List (Nat × Nat)) (buf : Nat → Nat → Nat → Int),
      (∃ t ∈ L, inTile H W th tw t r c) →
      (∀ t ∈ L, inTile H W th tw t r c →
        rasterizeBandWin alg count layers fill t.1 t.2 b (r - t.1) (c - t.2) = v) →
      (L.foldl (fun buf t =>
        writeWindow buf t.1 t.2 (clipLen H t.1 th) (clipLen W t.2 tw)
          (rasterizeBandWin alg count layers fill t.1 t.2)) buf) b r c = v
  | [], _, hex, _ => by simp at hex
  | t0 :: L, buf, hex, hval => by
    rw [List.foldl_cons]
    by_cases hrest : ∃ t ∈ L, inTile H W th tw t r c
    · exact tiled_fold_covered alg count layers fill H W th tw b r c v L _ hrest
        (fun t ht hin => hval t (List.mem_cons_of_mem _ ht) hin)
    · have h0 : inTile H W th tw t0 r c := by
        obtain ⟨t, ht, hin⟩ := hex
        rcases List.mem_cons.mp ht with rfl | htL
        · exact hin
        · exact absurd ⟨t, htL, hin⟩ hrest
      rw [tiled_fold_untouched alg count layers fill H W th tw b r c L _
        (fun t ht hin => hrest ⟨t, ht, hin⟩)]
      calc writeWindow buf t0.1 t0.2 (clipLen H t0.1 th) (clipLen W t0.2 tw)
            (rasterizeBandWin alg count layers fill t0.1 t0.2) b r c
          = rasterizeBandWin alg count layers fill t0.1 t0.2 b (r - t0.1) (c - t0.2) :=
            if_pos h0
        _ = v := hval t0 (List.mem_cons_self _ _) h0

/-- Rasterizing a clipped window with its window-local transform probes
each shape footprint at the same world pixels as the whole-grid pass. -/
theorem rasterizeBandWin_offset (alg : MergeAlgM) (count : Nat)
    (layers : List (List Shape)) (fill : Int) (roff coff b r c : Nat)
    (h1 : roff ≤ r) (h2 : coff ≤ c) :
    rasterizeBandWin alg count layers fill roff coff b (r - roff) (c - coff) =
      wholeRaster alg count layers fill b r c := by
  unfold wholeRaster rasterizeBandWin
  simp only [Nat.add_sub_cancel' h1, Nat.add_sub_cancel' h2, Nat.zero_add]

/-- The tile whose offset is the largest step multiple at or below the
pixel is generated by the loop and its clipped window contains the
pixel. -/
theorem covering_tile_mem {H th r : Nat} (hth : 0 < th) (hr : r < H) :
    th * (r / th) ∈ pyRange 0 H th ∧ th * (r / th) ≤ r ∧
      r < th * (r / th) + clipLen H (th * (r / th)) th := by
  have hmod := Nat.div_add_mod r th
  have hmlt : r % th < th := Nat.mod_lt _ hth
  have hle : th * (r / th) ≤ r := by omega
  refine ⟨(mem_pyRange_zero hth).mpr ⟨r / th, rfl, by omega⟩, hle, ?_⟩
  show r < th * (r / th) + min th (H - th * (r / th))
  omega

/-- C4: for any tile size (positive in both dimensions), any merge
algorithm, any band layout (burn or stack via the band count) and any
layer list, the tiled pass writes exactly the whole-grid pass's value at
every pixel of the reference grid; and every generated tile window is
clipped inside the raster bounds. -/
theorem rasterize_tiled_eq_whole (alg : MergeAlgM) (count : Nat)
    (layers : List (List Shape)) (fill : Int) (H W th tw b r c : Nat)
    (hth : 0 < th) (htw : 0 < tw) (hr : r < H) (hc : c < W) :
    tiledRaster alg count layers fill H W th tw b r c =
      wholeRaster alg count layers fill b r c ∧
    (∀ t ∈ tileOffsets H W th tw,
      t.1 + clipLen H t.1 th ≤ H ∧ t.2 + clipLen W t.2 tw ≤ W) := by
  constructor
  · unfold tiledRaster
    apply tiled_fold_covered
    · obtain ⟨hmr, hler, hltr⟩ := covering_tile_mem hth hr
      obtain ⟨hmc, hlec, hltc⟩ := covering_tile_mem htw hc
      exact ⟨(th * (r / th), tw * (c / tw)),
        (mem_tileOffsets _).mpr ⟨hmr, hmc⟩, hler, hltr, hlec, hltc⟩
    · intro t ht hin
      exact rasterizeBandWin_offset alg count layers fill t.1 t.2 b r c hin.1 hin.2.2.1
  · intro t ht
    obtain ⟨h1, h2⟩ := (mem_tileOffsets t).mp ht
    obtain ⟨k1, hk1, hlt1⟩ := (mem_pyRange_zero hth).mp h1
    obtain ⟨k2, hk2, hlt2⟩ := (mem_pyRange_zero htw).mp h2
    unfold clipLen
    omega

/-- C4 witness: a 2x3 grid tiled 1x2, band 0, pixel (1, 2). -/
theorem rasterize_tiled_eq_whole_witness :
    (0 : Nat) < 1 ∧ (0 : Nat) < 2 ∧
    tiledRaster MergeAlgM.replace 1 [[sampleShape]] 0 2 3 1 2 0 1 2 =
      wholeRaster MergeAlgM.replace 1 [[sampleShape]] 0 0 1 2 :=
  ⟨by decide, by decide,
    (rasterize_tiled_eq_whole MergeAlgM.replace 1 [[sampleShape]] 0 2 3 1 2 0 1 2
      (by decide) (by decide) (by decide) (by decide)).1⟩

end OTP
